import Mathlib

/-!
Verification of the learning core of the RL control template repository.

Numeric arrays are modelled over `ℚ`.  To capture the gradient semantics of
`jax.lax.stop_gradient`, every scalar flowing through a loss is a forward-mode
dual number `⟨val, der⟩`: `val` is the runtime value and `der` the directional
derivative along an arbitrary perturbation of the inputs.  `stop_gradient`
zeroes the derivative component, exactly mirroring its autodiff semantics.
-/

/-- A forward-mode dual number: a value together with a directional
derivative. -/
structure Dual where
  val : ℚ
  der : ℚ
  deriving DecidableEq

/-- Embed a constant (non-differentiated) rational as a dual number. -/
def ofQ (c : ℚ) : Dual := ⟨c, 0⟩

/-- `jax.lax.stop_gradient`: value preserved, derivative blocked. -/
def stop_gradient (d : Dual) : Dual := ⟨d.val, 0⟩

instance : Add Dual := ⟨fun a b => ⟨a.val + b.val, a.der + b.der⟩⟩

instance : Sub Dual := ⟨fun a b => ⟨a.val - b.val, a.der - b.der⟩⟩

instance : Neg Dual := ⟨fun a => ⟨-a.val, -a.der⟩⟩

instance : Mul Dual := ⟨fun a b => ⟨a.val * b.val, a.val * b.der + a.der * b.val⟩⟩

/-- Division of dual numbers (quotient rule; `ℚ` division is total). -/
def divD (a b : Dual) : Dual :=
  ⟨a.val / b.val, (a.der * b.val - a.val * b.der) / (b.val * b.val)⟩

/-- `jnp.abs` on dual numbers. -/
def absD (a : Dual) : Dual := ⟨|a.val|, if a.val < 0 then -a.der else a.der⟩

/-- `jnp.minimum` on dual numbers: values compared, the chosen branch carries
its derivative. -/
def minD (a b : Dual) : Dual := if a.val ≤ b.val then a else b

/-- One step of the `jnp.max` reduction. -/
def maxD2 (a b : Dual) : Dual := if b.val > a.val then b else a

/-- `jnp.max` over a vector of dual numbers (`jnp` rejects empty arrays; the
empty case is junk). -/
def maxD : List Dual → Dual
  | [] => ofQ 0
  | x :: xs => xs.foldl maxD2 x

/-- Sum of a vector of dual numbers. -/
def sumD (l : List Dual) : Dual := l.foldr (· + ·) (ofQ 0)

/-- `jnp.mean` of a vector of dual numbers. -/
def meanD (l : List Dual) : Dual := divD (sumD l) (ofQ (l.length : ℚ))

/-- Dot product of two vectors of dual numbers. -/
def dotD (a b : List Dual) : Dual := sumD (List.zipWith (· * ·) a b)

/-- `huber_loss` from `src/utils/jax.py`: `diffs = |pred - target|`,
`quadratic = min(diffs, tau)`, `linear = diffs - quadratic`, loss
`= 0.5·quadratic² + tau·linear`.  Called on scalars here, so the trailing
`jnp.mean` is the identity. -/
def huber_loss (tau : ℚ) (pred target : Dual) : Dual :=
  let diffs := absD (pred - target)
  let quadratic := minD diffs (ofQ tau)
  let linear := diffs - quadratic
  ofQ (1/2) * (quadratic * quadratic) + ofQ tau * linear

/-- The bootstrap target of `q_loss` in `src/agents/DQN.py`:
`target = stop_gradient (r + gamma * qp.max())`. -/
def q_target (r gamma : ℚ) (qp : List Dual) : Dual :=
  stop_gradient (ofQ r + ofQ gamma * maxD qp)

/-- `q_loss` from `src/agents/DQN.py`: Huber loss with threshold 1 between
`q[a]` and the stop-gradiented bootstrap target. -/
def q_loss (q : List Dual) (a : ℕ) (r gamma : ℚ) (qp : List Dual) : Dual :=
  huber_loss 1 (q.getD a (ofQ 0)) (q_target r gamma qp)

/-- `_argmax_with_random_tie_breaking` from `src/agents/EQRC.py`:
`optimal_actions = (preferences == preferences.max())` followed by
`optimal_actions / optimal_actions.sum()`.  The boolean comparison is
non-differentiable, so the indicator entries are constants. -/
def _argmax_with_random_tie_breaking (preferences : List Dual) : List Dual :=
  let m := maxD preferences
  let optimal := preferences.map (fun p => if p.val = m.val then ofQ 1 else ofQ 0)
  let s := sumD optimal
  optimal.map (fun o => divD o s)

/-- The policy built inside `qc_loss`: the greedy tie-breaking distribution
blended with uniform exploration, `(1 - epsilon)·pi + epsilon/num_actions`,
then wrapped in `stop_gradient` (elementwise). -/
def qc_pi (qtp1 : List Dual) (epsilon : ℚ) : List Dual :=
  ((_argmax_with_random_tie_breaking qtp1).map
    (fun p => ofQ (1 - epsilon) * p + ofQ (epsilon / (qtp1.length : ℚ)))).map
    stop_gradient

/-- `vtp1 = qtp1.dot(pi)` in `qc_loss`. -/
def qc_vtp1 (qtp1 : List Dual) (epsilon : ℚ) : Dual :=
  dotD qtp1 (qc_pi qtp1 epsilon)

/-- `target = stop_gradient (r + gamma * vtp1)` in `qc_loss`. -/
def qc_target (r gamma : ℚ) (qtp1 : List Dual) (epsilon : ℚ) : Dual :=
  stop_gradient (ofQ r + ofQ gamma * qc_vtp1 qtp1 epsilon)

/-- `delta = target - q[a]` in `qc_loss`. -/
def qc_delta (q : List Dual) (a : ℕ) (r gamma : ℚ) (qtp1 : List Dual)
    (epsilon : ℚ) : Dual :=
  qc_target r gamma qtp1 epsilon - q.getD a (ofQ 0)

/-- `qc_loss` from `src/agents/EQRC.py`, one sample: returns the pair
`(v_loss, h_loss)` with `v_loss = 0.5·delta² + gamma·stop_gradient(delta_hat)·vtp1`
and `h_loss = 0.5·(stop_gradient(delta) - delta_hat)²`. -/
def qc_loss (q : List Dual) (a : ℕ) (r gamma : ℚ) (qtp1 h : List Dual)
    (epsilon : ℚ) : Dual × Dual :=
  let vtp1 := qc_vtp1 qtp1 epsilon
  let delta := qc_delta q a r gamma qtp1 epsilon
  let delta_hat := h.getD a (ofQ 0)
  (ofQ (1/2) * (delta * delta) + ofQ gamma * stop_gradient delta_hat * vtp1,
   ofQ (1/2) * ((stop_gradient delta - delta_hat) * (stop_gradient delta - delta_hat)))

/-- Modelled from the spec: `hk.Linear` (external haiku module) is a linear map
from the feature vector to per-action scalars.  `w` is stored output-major:
`w.get j` holds the weight column feeding output `j`. -/
def hk_linear (w : List (List Dual)) (b : List Dual) (x : List Dual) : List Dual :=
  List.zipWith (fun col bj => dotD col x + bj) w b

/-- `buildH` from `src/agents/EQRC.py`: the correction head applies a linear
layer to `stop_gradient(x)` so no gradient flows back into the features. -/
def buildH (w : List (List Dual)) (b : List Dual) (x : List Dual) : List Dual :=
  hk_linear w b (x.map stop_gradient)

/-- The initial parameters of the correction head: `hk.initializers.Constant(0)`
for both the weights and the biases (`EQRC.__init__` via `buildH`). -/
def hInit (actions featDim : ℕ) : List (List Dual) × List Dual :=
  (List.replicate actions (List.replicate featDim (ofQ 0)),
   List.replicate actions (ofQ 0))

/-- One replay transition `(state, action, next_state, reward, discount)`. -/
structure Transition where
  x : List ℚ
  a : ℕ
  xp : List ℚ
  r : ℚ
  gamma : ℚ
  deriving DecidableEq

/-- `EQRC._loss`: apply the value network to states and next states, the
correction head to the features, `qc_loss` to every sample, and return
`v_loss.mean() + h_loss.mean()`.  The externally configured value network
(`getNetwork`) is an opaque collaborator mapping an observation to the pair
`(q, features)`. -/
def eqrc_loss (valueNet : List ℚ → List Dual × List Dual)
    (hw : List (List Dual)) (hb : List Dual) (epsilon : ℚ)
    (batch : List Transition) : Dual :=
  let per := batch.map (fun t =>
    let qphi := valueNet t.x
    let qtp1 := (valueNet t.xp).1
    let h := buildH hw hb qphi.2
    qc_loss qphi.1 t.a t.r t.gamma qtp1 h epsilon)
  meanD (per.map Prod.fst) + meanD (per.map Prod.snd)

/-- The number of maximal entries of a preference vector. -/
def countMax (prefs : List Dual) : ℕ :=
  prefs.countP (fun p => decide (p.val = (maxD prefs).val))

/-- Stated from the spec: the greedy-with-random-tie-break distribution puts
mass `1/m` on each of the `m` maximizers and `0` elsewhere. -/
def specPiStar (prefs : List Dual) : List Dual :=
  prefs.map (fun p =>
    ofQ (if p.val = (maxD prefs).val then 1 / (countMax prefs : ℚ) else 0))

/-- Stated from the spec: `pi = (1-epsilon)·pi_star + epsilon/num_actions`,
constant under differentiation. -/
def specPi (prefs : List Dual) (epsilon : ℚ) : List Dual :=
  (specPiStar prefs).map
    (fun p => ofQ ((1 - epsilon) * p.val + epsilon / (prefs.length : ℚ)))

/-- Stated from the spec: `v' = q'·pi`, the expected next-state value. -/
def specVNext (qtp1 : List Dual) (epsilon : ℚ) : Dual :=
  dotD qtp1 (specPi qtp1 epsilon)

/-- Stated from the spec: `target = r + gamma·v'`, constant w.r.t. gradients. -/
def specTarget (r gamma : ℚ) (qtp1 : List Dual) (epsilon : ℚ) : Dual :=
  ofQ (r + gamma * (specVNext qtp1 epsilon).val)

/-- Stated from the spec: the TD error `delta = target - q[a]`. -/
def specDelta (q : List Dual) (a : ℕ) (r gamma : ℚ) (qtp1 : List Dual)
    (epsilon : ℚ) : Dual :=
  specTarget r gamma qtp1 epsilon - q.getD a (ofQ 0)

/-- Stated from the spec: per-sample value loss
`0.5·delta² + gamma·stopgrad(delta_hat)·v'` (the coefficient `stopgrad(delta_hat)`
is the constant `delta_hat` value). -/
def specValueLoss (q : List Dual) (a : ℕ) (r gamma : ℚ) (qtp1 h : List Dual)
    (epsilon : ℚ) : Dual :=
  let delta := specDelta q a r gamma qtp1 epsilon
  ofQ (1/2) * (delta * delta) +
    ofQ gamma * ofQ (h.getD a (ofQ 0)).val * specVNext qtp1 epsilon

/-- Stated from the spec: per-sample correction loss
`0.5·(stopgrad(delta) - delta_hat)²`. -/
def specCorrectionLoss (q : List Dual) (a : ℕ) (r gamma : ℚ) (qtp1 h : List Dual)
    (epsilon : ℚ) : Dual :=
  let d := ofQ (specDelta q a r gamma qtp1 epsilon).val - h.getD a (ofQ 0)
  ofQ (1/2) * (d * d)

/-- A numeric array of rank 1, 2 or 3 (vector observations, a batch of them,
and the rank-3 intermediate created by `np.expand_dims`). -/
inductive Arr where
  | r1 (v : List ℚ)
  | r2 (m : List (List ℚ))
  | r3 (t : List (List (List ℚ)))
  deriving DecidableEq

/-- `len(x.shape)`. -/
def ndim : Arr → ℕ
  | .r1 _ => 1
  | .r2 _ => 2
  | .r3 _ => 3

/-- `np.expand_dims(x, 0)`: add a leading axis (rank 3 has no rank-4 image in
this model and is never expanded by the code under scrutiny). -/
def expand_dims : Arr → Arr
  | .r1 v => .r2 [v]
  | .r2 m => .r3 [m]
  | .r3 t => .r3 t

/-- `x[0]`: drop the leading axis (junk on rank 1, never used there). -/
def index0 : Arr → Arr
  | .r1 v => .r1 v
  | .r2 m => .r1 (m.headD [])
  | .r3 t => .r2 (t.headD [])

/-- Modelled from the spec: the jit-compiled network (feature encoder composed
with the linear value head, both externally configured) maps one observation
vector to one per-action value vector, and — as a dense jax network — is applied
pointwise over any leading batch axes. -/
def netApply (net : List ℚ → List ℚ) : Arr → Arr
  | .r1 v => .r1 (net v)
  | .r2 m => .r2 (m.map net)
  | .r3 t => .r3 (t.map (fun m => m.map net))

/-- Extract the vector of a rank-1 array. -/
def toVec : Arr → List ℚ
  | .r1 v => v
  | _ => []

/-- `DQN.values` from `src/agents/DQN.py`: if the input has more than one
axis, add a leading batch axis, apply the network, and strip the leading
axis; otherwise apply the network directly. -/
def dqn_values (net : List ℚ → List ℚ) (x : Arr) : Arr :=
  if ndim x > 1 then index0 (netApply net (expand_dims x))
  else netApply net x

/-- Modelled from the spec: the EQRC value network (`getNetwork`, external)
maps one observation to the pair `(q, features)`, applied pointwise over any
leading batch axes; the pair of stacked outputs is returned componentwise. -/
def netApplyPair (valueNet : List ℚ → List ℚ × List ℚ) : Arr → Arr × Arr
  | .r1 v => (.r1 (valueNet v).1, .r1 (valueNet v).2)
  | .r2 m => (.r2 (m.map (fun v => (valueNet v).1)),
              .r2 (m.map (fun v => (valueNet v).2)))
  | .r3 t => (.r3 (t.map (fun m => m.map (fun v => (valueNet v).1))),
              .r3 (t.map (fun m => m.map (fun v => (valueNet v).2))))

/-- `EQRC._values`: `self.value_net.apply(params, x)[0]`, the `q` component of
the network output. -/
def eqrc_values_internal (valueNet : List ℚ → List ℚ × List ℚ) (x : Arr) : Arr :=
  (netApplyPair valueNet x).1

/-- `EQRC.values` from `src/agents/EQRC.py`: same leading-axis handling as
`DQN.values`. -/
def eqrc_values (valueNet : List ℚ → List ℚ × List ℚ) (x : Arr) : Arr :=
  if ndim x > 1 then index0 (eqrc_values_internal valueNet (expand_dims x))
  else eqrc_values_internal valueNet x

/-- Modelled from the spec: `ReplayTables.Table` (external) is a fixed-capacity
circular store; `addTuple` appends while below capacity and otherwise
overwrites the oldest entry. -/
def addTuple (maxSize : ℕ) (buf : List Transition) (t : Transition) :
    List Transition :=
  if buf.length < maxSize then buf ++ [t] else buf.drop 1 ++ [t]

/-- The configuration and external collaborators of the `DQN` agent.
`computeUpdate` is `DQN._computeUpdate` — the jit-compiled pure function
(gradient of the batched loss through the externally configured network,
followed by the external `optax.adam` update) returning
`(sqrt delta, new optimizer state, new params)`.  `sampler` is the uniform
random draw of `Table.sample`, its randomness abstracted as an oracle. -/
structure DQNConfig (P O : Type) where
  bufferSize : ℕ
  batchSize : ℕ
  updateFreq : ℕ
  targetRefresh : ℕ
  computeUpdate : P → P → O → List Transition → ℚ × O × P
  sampler : List Transition → ℕ → List Transition

/-- The mutable state of the `DQN` agent. -/
structure DQNState (P O : Type) where
  steps : ℕ
  netParams : P
  targetParams : P
  optState : O
  buffer : List Transition

/-- The first half of `DQN.update`: increment the step counter, zero the next
state on a terminal transition (`gamma == 0`), and insert into the buffer. -/
def dqnInsert {P O : Type} (cfg : DQNConfig P O) (s : DQNState P O)
    (x : List ℚ) (a : ℕ) (xp : List ℚ) (r gamma : ℚ) : DQNState P O :=
  { s with
    steps := s.steps + 1,
    buffer := addTuple cfg.bufferSize s.buffer
      ⟨x, a, if gamma = 0 then List.replicate x.length 0 else xp, r, gamma⟩ }

/-- `DQN.updateNetwork`: run `_computeUpdate`, install the new parameters and
optimizer state, and refresh the target parameters when
`steps % target_refresh == 0`. -/
def updateNetwork {P O : Type} (cfg : DQNConfig P O) (s : DQNState P O)
    (batch : List Transition) : DQNState P O :=
  let cu := cfg.computeUpdate s.netParams s.targetParams s.optState batch
  { s with
    netParams := cu.2.2,
    optState := cu.2.1,
    targetParams :=
      if s.steps % cfg.targetRefresh = 0 then cu.2.2 else s.targetParams }

/-- `DQN.update`: insert, then — only when the step counter is on the
`update_freq` cadence and the buffer holds strictly more than `batch_size`
entries — sample a batch and run `updateNetwork`.  The boolean records
whether `sample` was invoked. -/
def dqnUpdate {P O : Type} (cfg : DQNConfig P O) (s : DQNState P O)
    (x : List ℚ) (a : ℕ) (xp : List ℚ) (r gamma : ℚ) : DQNState P O × Bool :=
  let s1 := dqnInsert cfg s x a xp r gamma
  if s1.steps % cfg.updateFreq ≠ 0 then (s1, false)
  else if s1.buffer.length > cfg.batchSize then
    (updateNetwork cfg s1 (cfg.sampler s1.buffer cfg.batchSize), true)
  else (s1, false)

/-- The configuration and external collaborators of the `EQRC` agent
(no target parameters; `computeUpdate` is `EQRC._computeUpdate`). -/
structure EQRCConfig (P O : Type) where
  bufferSize : ℕ
  batchSize : ℕ
  updateFreq : ℕ
  computeUpdate : P → O → List Transition → ℚ × O × P
  sampler : List Transition → ℕ → List Transition

/-- The mutable state of the `EQRC` agent. -/
structure EQRCState (P O : Type) where
  steps : ℕ
  params : P
  optState : O
  buffer : List Transition

/-- The first half of `EQRC.update` (same bookkeeping as `DQN.update`). -/
def eqrcInsert {P O : Type} (cfg : EQRCConfig P O) (s : EQRCState P O)
    (x : List ℚ) (a : ℕ) (xp : List ℚ) (r gamma : ℚ) : EQRCState P O :=
  { s with
    steps := s.steps + 1,
    buffer := addTuple cfg.bufferSize s.buffer
      ⟨x, a, if gamma = 0 then List.replicate x.length 0 else xp, r, gamma⟩ }

/-- `EQRC._updateNetwork`: install the new parameters and optimizer state. -/
def eqrcUpdateNetwork {P O : Type} (cfg : EQRCConfig P O) (s : EQRCState P O)
    (batch : List Transition) : EQRCState P O :=
  let cu := cfg.computeUpdate s.params s.optState batch
  { s with params := cu.2.2, optState := cu.2.1 }

/-- `EQRC.update`: identical orchestration to `DQN.update`. -/
def eqrcUpdate {P O : Type} (cfg : EQRCConfig P O) (s : EQRCState P O)
    (x : List ℚ) (a : ℕ) (xp : List ℚ) (r gamma : ℚ) : EQRCState P O × Bool :=
  let s1 := eqrcInsert cfg s x a xp r gamma
  if s1.steps % cfg.updateFreq ≠ 0 then (s1, false)
  else if s1.buffer.length > cfg.batchSize then
    (eqrcUpdateNetwork cfg s1 (cfg.sampler s1.buffer cfg.batchSize), true)
  else (s1, false)

/-- The two parameter sub-collections of the EQRC agent, each pytree flattened
to its list of scalar leaves (`tree_map` acts leafwise). -/
structure QRCParams where
  w : List ℚ
  h : List ℚ
  deriving DecidableEq

/-- `optax.apply_updates` (external): parameters plus update deltas, leafwise. -/
def applyUpdates (p u : QRCParams) : QRCParams :=
  ⟨List.zipWith (· + ·) p.w u.w, List.zipWith (· + ·) p.h u.h⟩

/-- `EQRC._computeUpdate`: one combined gradient step (`valueAndGrad`, the
`jax.value_and_grad` of `EQRC._loss`, abstracted), the external optimizer
update (`optUpdate`, abstracted `optax.adam.update`), then the explicit weight
decay `dh - stepsize * beta * h` applied to the `h` update deltas only, and
finally `optax.apply_updates`.  `sqrtFn` abstracts the float `jnp.sqrt` used
for the returned diagnostic. -/
def eqrcComputeUpdate {O : Type} (stepsize beta : ℚ) (sqrtFn : ℚ → ℚ)
    (valueAndGrad : QRCParams → List Transition → ℚ × QRCParams)
    (optUpdate : QRCParams → O → QRCParams → QRCParams × O)
    (params : QRCParams) (opt : O) (batch : List Transition) :
    ℚ × O × QRCParams :=
  let vg := valueAndGrad params batch
  let us := optUpdate vg.2 opt params
  let decay := List.zipWith (fun hp dh => dh - stepsize * beta * hp) params.h us.1.h
  let p2 := applyUpdates params ⟨us.1.w, decay⟩
  (sqrtFn vg.1, us.2, p2)

/-- A concrete instantiation of the DQN collaborators over `P = O = ℚ`:
capacity 10, batch size 1, update and target cadence 1, a compute step that
bumps the parameters by one, and a sampler that returns the buffer. -/
def cexConfigA : DQNConfig ℚ ℚ :=
  ⟨10, 1, 1, 1, fun p _ o _ => (0, o, p + 1), fun l _ => l⟩

/-- A concrete instantiation over `P = O = ℚ`: capacity 10, batch size 0,
update cadence 1, target cadence 2, a compute step that bumps both the
parameters and the optimizer state by one. -/
def cexConfigB : DQNConfig ℚ ℚ :=
  ⟨10, 0, 1, 2, fun p _ o _ => (0, o + 1, p + 1), fun l _ => l⟩

/-- The freshly constructed agent state: zero counters, parameters, target
parameters and optimizer state, empty buffer. -/
def cexStart : DQNState ℚ ℚ := ⟨0, 0, 0, 0, []⟩

/-! ## Helper lemmas -/

theorem Dual.eq_of_parts {a b : Dual} (h1 : a.val = b.val) (h2 : a.der = b.der) :
    a = b := by
  cases a; cases b; simp_all

@[simp] theorem val_add (a b : Dual) : (a + b).val = a.val + b.val := rfl

@[simp] theorem der_add (a b : Dual) : (a + b).der = a.der + b.der := rfl

@[simp] theorem val_sub (a b : Dual) : (a - b).val = a.val - b.val := rfl

@[simp] theorem der_sub (a b : Dual) : (a - b).der = a.der - b.der := rfl

@[simp] theorem val_mul (a b : Dual) : (a * b).val = a.val * b.val := rfl

@[simp] theorem der_mul (a b : Dual) :
    (a * b).der = a.val * b.der + a.der * b.val := rfl

@[simp] theorem val_ofQ (c : ℚ) : (ofQ c).val = c := rfl

@[simp] theorem der_ofQ (c : ℚ) : (ofQ c).der = 0 := rfl

@[simp] theorem val_sg (a : Dual) : (stop_gradient a).val = a.val := rfl

@[simp] theorem der_sg (a : Dual) : (stop_gradient a).der = 0 := rfl

theorem sg_eq_ofQ (a : Dual) : stop_gradient a = ofQ a.val := rfl

theorem ofQ_add (a b : ℚ) : ofQ a + ofQ b = ofQ (a + b) :=
  Dual.eq_of_parts (by simp) (by simp)

theorem ofQ_mul (a b : ℚ) : ofQ a * ofQ b = ofQ (a * b) :=
  Dual.eq_of_parts (by simp) (by simp)

/-- Claim C6: for every prediction and target, the Huber loss with threshold
`tau` equals `0.5·(pred-target)²` when `|pred-target| ≤ tau`, and equals
`0.5·tau² + tau·(|pred-target|-tau)` when `|pred-target| > tau`. -/
theorem claim_C6_huber (tau : ℚ) (p t : Dual) :
    (huber_loss tau p t).val =
      if |p.val - t.val| ≤ tau then (p.val - t.val) ^ 2 / 2
      else tau ^ 2 / 2 + tau * (|p.val - t.val| - tau) := by
  have habs : (absD (p - t)).val = |p.val - t.val| := by simp [absD]
  by_cases h : |p.val - t.val| ≤ tau
  · have hmin : minD (absD (p - t)) (ofQ tau) = absD (p - t) := by
      simp [minD, habs, h]
    simp only [huber_loss, hmin, h, if_pos, val_add, val_mul, val_sub, val_ofQ,
      habs]
    rw [abs_mul_abs_self]
    ring
  · have hmin : minD (absD (p - t)) (ofQ tau) = ofQ tau := by
      simp [minD, habs, h]
    simp only [huber_loss, hmin, h, if_neg, not_false_iff, val_add, val_mul,
      val_sub, val_ofQ, habs]
    ring

theorem sg_sg (a : Dual) : stop_gradient (stop_gradient a) = stop_gradient a := rfl

theorem foldl_maxD2_val_sg (l : List Dual) :
    ∀ a b : Dual, a.val = b.val →
      (List.foldl maxD2 a (l.map stop_gradient)).val =
        (List.foldl maxD2 b l).val := by
  induction l with
  | nil => intro a b h; simpa using h
  | cons x xs ih =>
    intro a b h
    simp only [List.map_cons, List.foldl_cons]
    apply ih
    by_cases hc : x.val > a.val
    · have hc2 : x.val > b.val := h ▸ hc
      simp [maxD2, hc, hc2]
    · have hc2 : ¬ x.val > b.val := h ▸ hc
      simp [maxD2, hc, hc2, h]

theorem maxD_val_map_sg (l : List Dual) :
    (maxD (l.map stop_gradient)).val = (maxD l).val := by
  cases l with
  | nil => rfl
  | cons x xs => exact foldl_maxD2_val_sg xs (stop_gradient x) x rfl

theorem q_target_map_sg (r gamma : ℚ) (qp : List Dual) :
    q_target r gamma (qp.map stop_gradient) = q_target r gamma qp := by
  unfold q_target
  rw [sg_eq_ofQ, sg_eq_ofQ]
  congr 1
  simp [maxD_val_map_sg]

/-- Claim C8: gradient isolation.  First conjunct (standard variant): the
per-sample loss `q_loss` — value and derivative — is unchanged when the
derivative components of `qp` are zeroed, i.e. the bootstrap target
contributes exactly zero gradient through the target-parameter path `qp`.
Second conjunct (EQRC variant): the correction head `buildH` is unchanged when
the derivative components of its feature input are zeroed, i.e. zero gradient
flows back into the features through its stop-gradient path. -/
theorem claim_C8_grad_isolation :
    (∀ (q : List Dual) (a : ℕ) (r gamma : ℚ) (qp : List Dual),
      q_loss q a r gamma qp = q_loss q a r gamma (qp.map stop_gradient)) ∧
    (∀ (w : List (List Dual)) (b x : List Dual),
      buildH w b x = buildH w b (x.map stop_gradient)) := by
  constructor
  · intro q a r gamma qp
    unfold q_loss
    rw [q_target_map_sg]
  · intro w b x
    have hcomp : stop_gradient ∘ stop_gradient = stop_gradient :=
      funext fun a => sg_sg a
    unfold buildH
    rw [List.map_map, hcomp]

/-- Claim C9: shape polymorphism of the public `values` operation, for both
agents.  A single observation returns a single per-action vector (no batch
axis added by the caller or present in the result), and a batch returns the
batch of per-action vectors whose i-th element equals `values` applied to the
i-th observation alone. -/
theorem claim_C9_shape_poly :
    (∀ (net : List ℚ → List ℚ) (v : List ℚ),
      dqn_values net (Arr.r1 v) = Arr.r1 (net v)) ∧
    (∀ (net : List ℚ → List ℚ) (rows : List (List ℚ)),
      dqn_values net (Arr.r2 rows) =
        Arr.r2 (rows.map (fun row => toVec (dqn_values net (Arr.r1 row))))) ∧
    (∀ (vn : List ℚ → List ℚ × List ℚ) (v : List ℚ),
      eqrc_values vn (Arr.r1 v) = Arr.r1 (vn v).1) ∧
    (∀ (vn : List ℚ → List ℚ × List ℚ) (rows : List (List ℚ)),
      eqrc_values vn (Arr.r2 rows) =
        Arr.r2 (rows.map (fun row => toVec (eqrc_values vn (Arr.r1 row))))) :=
  ⟨fun _ _ => rfl, fun _ _ => rfl, fun _ _ => rfl, fun _ _ => rfl⟩

theorem sumD_nil : sumD [] = ofQ 0 := rfl

theorem sumD_cons (a : Dual) (l : List Dual) : sumD (a :: l) = a + sumD l := rfl

theorem divD_ofQ (a b : ℚ) : divD (ofQ a) (ofQ b) = ofQ (a / b) :=
  Dual.eq_of_parts (by simp [divD]) (by simp [divD])

theorem sumD_map_ite (c : Dual → Prop) [DecidablePred c] (l : List Dual) :
    sumD (l.map fun p => if c p then ofQ 1 else ofQ 0) =
      ofQ ((l.countP fun p => decide (c p) : ℕ) : ℚ) := by
  induction l with
  | nil => simp [sumD]
  | cons x xs ih =>
    by_cases hx : c x
    · simp only [List.map_cons, sumD_cons, ih, if_pos hx, ofQ_add,
        List.countP_cons, decide_eq_true_eq, hx, if_true]
      congr 1
      push_cast
      ring
    · simp only [List.map_cons, sumD_cons, ih, if_neg hx, ofQ_add,
        List.countP_cons, decide_eq_true_eq, hx, if_false]
      congr 1
      push_cast
      ring

theorem argmax_eq_specPiStar (prefs : List Dual) :
    _argmax_with_random_tie_breaking prefs = specPiStar prefs := by
  simp only [_argmax_with_random_tie_breaking, specPiStar, countMax]
  rw [sumD_map_ite (fun p => p.val = (maxD prefs).val), List.map_map]
  apply List.map_congr_left
  intro p _
  by_cases hp : p.val = (maxD prefs).val
  · simp only [Function.comp_apply, if_pos hp, divD_ofQ]
  · simp only [Function.comp_apply, if_neg hp, divD_ofQ, zero_div]

theorem qc_pi_eq_specPi (qtp1 : List Dual) (eps : ℚ) :
    qc_pi qtp1 eps = specPi qtp1 eps := by
  simp only [qc_pi, specPi]
  rw [argmax_eq_specPiStar, List.map_map]
  apply List.map_congr_left
  intro p _
  simp only [Function.comp_apply]
  rw [sg_eq_ofQ]
  rfl

theorem qc_vtp1_eq (qtp1 : List Dual) (eps : ℚ) :
    qc_vtp1 qtp1 eps = specVNext qtp1 eps := by
  simp only [qc_vtp1, specVNext]
  rw [qc_pi_eq_specPi]

theorem qc_target_eq (r gamma : ℚ) (qtp1 : List Dual) (eps : ℚ) :
    qc_target r gamma qtp1 eps = specTarget r gamma qtp1 eps := by
  simp only [qc_target, specTarget]
  rw [qc_vtp1_eq, sg_eq_ofQ]
  rfl

theorem qc_delta_eq (q : List Dual) (a : ℕ) (r gamma : ℚ) (qtp1 : List Dual)
    (eps : ℚ) : qc_delta q a r gamma qtp1 eps = specDelta q a r gamma qtp1 eps := by
  simp only [qc_delta, specDelta]
  rw [qc_target_eq]

theorem qc_loss_eq_spec (q : List Dual) (a : ℕ) (r gamma : ℚ)
    (qtp1 h : List Dual) (eps : ℚ) :
    qc_loss q a r gamma qtp1 h eps =
      (specValueLoss q a r gamma qtp1 h eps,
       specCorrectionLoss q a r gamma qtp1 h eps) := by
  simp only [qc_loss, specValueLoss, specCorrectionLoss]
  rw [qc_vtp1_eq, qc_delta_eq]
  rfl

theorem getD_map_of_lt (f : Dual → Dual) (l : List Dual) (i : ℕ)
    (hi : i < l.length) (d e : Dual) :
    (l.map f).getD i d = f (l.getD i e) := by
  rw [List.getD_eq_getElem?_getD, List.getD_eq_getElem?_getD,
    List.getElem?_map, List.getElem?_eq_getElem hi]
  rfl

/-- Claim C7: for a preference vector with `m` tied maximal entries, the
greedy tie-breaking distribution puts probability mass exactly `1/m` on each
maximizing index and exactly `0` on every other index. -/
theorem claim_C7_tie_breaking (prefs : List Dual) (i : ℕ)
    (hi : i < prefs.length) :
    ((_argmax_with_random_tie_breaking prefs).getD i (ofQ 0)).val =
      if (prefs.getD i (ofQ 0)).val = (maxD prefs).val
      then 1 / (countMax prefs : ℚ) else 0 := by
  rw [argmax_eq_specPiStar]
  simp only [specPiStar]
  rw [getD_map_of_lt _ prefs i hi _ (ofQ 0)]
  rfl

/-- Witness for claim C7 at the preference vector `[1, 3, 3]` (two tied
maxima): index 1 receives mass exactly `1/2`. -/
theorem claim_C7_witness :
    ((_argmax_with_random_tie_breaking [ofQ 1, ofQ 3, ofQ 3]).getD 1 (ofQ 0)).val
      = 1 / 2 := by
  have h := claim_C7_tie_breaking [ofQ 1, ofQ 3, ofQ 3] 1 (by decide)
  rw [h]
  norm_num [List.getD_cons_succ, List.getD_cons_zero, maxD, maxD2, countMax,
    ofQ, List.countP, List.countP.go]

/-- Claim C4: per sampled transition, the EQRC loss pair computed by `qc_loss`
equals the spec formulas — with `pi` the blended tie-breaking distribution held
constant under differentiation, `v' = q'·pi`, `target = r + gamma·v'` constant
w.r.t. gradients, `delta = target - q[a]`, `delta_hat = h[a]`, value loss
`0.5·delta² + gamma·stopgrad(delta_hat)·v'` and correction loss
`0.5·(stopgrad(delta) - delta_hat)²` — and the batch loss of `EQRC._loss` is
the mean of the value losses plus the mean of the correction losses. -/
theorem claim_C4_qc_loss :
    (∀ (q : List Dual) (a : ℕ) (r gamma : ℚ) (qtp1 h : List Dual) (eps : ℚ),
      qc_loss q a r gamma qtp1 h eps =
        (specValueLoss q a r gamma qtp1 h eps,
         specCorrectionLoss q a r gamma qtp1 h eps)) ∧
    (∀ (valueNet : List ℚ → List Dual × List Dual) (hw : List (List Dual))
      (hb : List Dual) (eps : ℚ) (batch : List Transition),
      eqrc_loss valueNet hw hb eps batch =
        meanD (batch.map fun t =>
          specValueLoss (valueNet t.x).1 t.a t.r t.gamma (valueNet t.xp).1
            (buildH hw hb (valueNet t.x).2) eps) +
        meanD (batch.map fun t =>
          specCorrectionLoss (valueNet t.x).1 t.a t.r t.gamma (valueNet t.xp).1
            (buildH hw hb (valueNet t.x).2) eps)) := by
  constructor
  · exact qc_loss_eq_spec
  · intro valueNet hw hb eps batch
    simp only [eqrc_loss]
    rw [List.map_map, List.map_map]
    congr 1
    · congr 1
      apply List.map_congr_left
      intro t _
      simp only [Function.comp_apply]
      rw [qc_loss_eq_spec]
    · congr 1
      apply List.map_congr_left
      intro t _
      simp only [Function.comp_apply]
      rw [qc_loss_eq_spec]

theorem dotD_replicate_zero (d : ℕ) (y : List Dual) :
    dotD (List.replicate d (ofQ 0)) y = ofQ 0 := by
  induction d generalizing y with
  | zero => rfl
  | succ n ih =>
    cases y with
    | nil => rfl
    | cons z zs =>
      simp only [List.replicate_succ, dotD, List.zipWith_cons_cons, sumD_cons]
      have hz : ofQ 0 * z = ofQ 0 := Dual.eq_of_parts (by simp) (by simp)
      have hrest : sumD (List.zipWith (· * ·) (List.replicate n (ofQ 0)) zs) = ofQ 0 := ih zs
      rw [hz, hrest, ofQ_add]
      norm_num

theorem zipWith_hk_zero (x : List Dual) (featDim : ℕ) (a : ℕ) :
    List.zipWith (fun col bj => dotD col x + bj)
      (List.replicate a (List.replicate featDim (ofQ 0)))
      (List.replicate a (ofQ 0)) = List.replicate a (ofQ 0) := by
  induction a with
  | zero => rfl
  | succ n ih =>
    simp only [List.replicate_succ, List.zipWith_cons_cons, ih]
    rw [dotD_replicate_zero, ofQ_add]
    norm_num

theorem getD_replicate (n i : ℕ) (d : Dual) :
    (List.replicate n d).getD i d = d := by
  induction n generalizing i with
  | zero => cases i <;> rfl
  | succ m ih =>
    cases i with
    | zero => rfl
    | succ j => simp only [List.replicate_succ, List.getD_cons_succ]; exact ih j

theorem buildH_hInit (actions featDim : ℕ) (x : List Dual) :
    buildH (hInit actions featDim).1 (hInit actions featDim).2 x =
      List.replicate actions (ofQ 0) := by
  simp only [buildH, hk_linear, hInit]
  exact zipWith_hk_zero (x.map stop_gradient) featDim actions

/-- Claim C10: the correction head is initialized with all-zero weights and
biases, so before the first parameter update `h(features)` is the zero vector
for every feature input; consequently `delta_hat = h[a] = 0` in the first
update's loss, whose pair collapses to
`(0.5·delta², 0.5·(stopgrad delta)²)`. -/
theorem claim_C10_zero_init :
    (∀ (actions featDim : ℕ) (x : List Dual),
      buildH (hInit actions featDim).1 (hInit actions featDim).2 x =
        List.replicate actions (ofQ 0)) ∧
    (∀ (n a : ℕ), (List.replicate n (ofQ 0)).getD a (ofQ 0) = ofQ 0) ∧
    (∀ (q : List Dual) (a : ℕ) (r gamma : ℚ) (qtp1 : List Dual) (n : ℕ)
      (eps : ℚ),
      qc_loss q a r gamma qtp1 (List.replicate n (ofQ 0)) eps =
        (ofQ (1/2) * (qc_delta q a r gamma qtp1 eps *
            qc_delta q a r gamma qtp1 eps),
         ofQ (1/2) * (stop_gradient (qc_delta q a r gamma qtp1 eps) *
            stop_gradient (qc_delta q a r gamma qtp1 eps)))) := by
  refine ⟨buildH_hInit, fun n a => getD_replicate n a (ofQ 0), ?_⟩
  intro q a r gamma qtp1 n eps
  simp only [qc_loss, getD_replicate]
  rw [Prod.mk.injEq]
  constructor
  · apply Dual.eq_of_parts <;>
      simp only [val_add, der_add, val_mul, der_mul, val_sub, der_sub,
        val_ofQ, der_ofQ, val_sg, der_sg] <;>
      ring
  · apply Dual.eq_of_parts <;>
      simp only [val_add, der_add, val_mul, der_mul, val_sub, der_sub,
        val_ofQ, der_ofQ, val_sg, der_sg] <;>
      ring

/-- Claim C5: in `EQRC._computeUpdate`, the returned optimizer state is the
one produced by the single optimizer call on the single combined gradient; the
value-parameter (`w`) update delta is applied unmodified; and only the
correction (`h`) update delta additionally receives the weight decay
`- stepsize·beta·h`, computed from the pre-update correction parameters and
applied after the gradient/optimizer step (not folded into the loss, which
takes no `beta`). -/
theorem claim_C5_decay (O : Type) (stepsize beta : ℚ) (sqrtFn : ℚ → ℚ)
    (valueAndGrad : QRCParams → List Transition → ℚ × QRCParams)
    (optUpdate : QRCParams → O → QRCParams → QRCParams × O)
    (params : QRCParams) (opt : O) (batch : List Transition) :
    (eqrcComputeUpdate stepsize beta sqrtFn valueAndGrad optUpdate params opt
        batch).2.1 =
      (optUpdate (valueAndGrad params batch).2 opt params).2 ∧
    (eqrcComputeUpdate stepsize beta sqrtFn valueAndGrad optUpdate params opt
        batch).2.2.w =
      List.zipWith (· + ·) params.w
        (optUpdate (valueAndGrad params batch).2 opt params).1.w ∧
    (eqrcComputeUpdate stepsize beta sqrtFn valueAndGrad optUpdate params opt
        batch).2.2.h =
      List.zipWith (· + ·) params.h
        (List.zipWith (fun hp dh => dh - stepsize * beta * hp) params.h
          (optUpdate (valueAndGrad params batch).2 opt params).1.h) :=
  ⟨rfl, rfl, rfl⟩

theorem mem_addTuple (cap : ℕ) (buf : List Transition) (t : Transition) :
    t ∈ addTuple cap buf t := by
  unfold addTuple
  split <;> simp

theorem q_target_gamma_zero (r : ℚ) (qp : List Dual) :
    q_target r 0 qp = ofQ r := by
  unfold q_target
  rw [sg_eq_ofQ]
  apply Dual.eq_of_parts <;> simp

theorem dqnUpdate_fst_buffer (P O : Type) (cfg : DQNConfig P O)
    (s : DQNState P O) (x : List ℚ) (a : ℕ) (xp : List ℚ) (r gamma : ℚ) :
    (dqnUpdate cfg s x a xp r gamma).1.buffer =
      (dqnInsert cfg s x a xp r gamma).buffer := by
  simp only [dqnUpdate]
  split
  · rfl
  · split
    · rfl
    · rfl

theorem dqnUpdate_fst_steps (P O : Type) (cfg : DQNConfig P O)
    (s : DQNState P O) (x : List ℚ) (a : ℕ) (xp : List ℚ) (r gamma : ℚ) :
    (dqnUpdate cfg s x a xp r gamma).1.steps = s.steps + 1 := by
  simp only [dqnUpdate]
  split
  · rfl
  · split
    · rfl
    · rfl

theorem dqnUpdate_buffer_terminal (P O : Type) (cfg : DQNConfig P O)
    (s : DQNState P O) (x : List ℚ) (a : ℕ) (xp : List ℚ) (r : ℚ) :
    (dqnUpdate cfg s x a xp r 0).1.buffer =
      addTuple cfg.bufferSize s.buffer ⟨x, a, List.replicate x.length 0, r, 0⟩ := by
  rw [dqnUpdate_fst_buffer]
  simp [dqnInsert]

/-- Claim C2: a terminal call (`gamma = 0`) stores the transition with
`next_state` replaced by the all-zero list of `x`'s length (first two
conjuncts), and the bootstrap target of the DQN loss at discount zero equals
the reward no matter the next-state values `qp`, so the per-sample loss
collapses to the Huber loss against the reward (last two conjuncts). -/
theorem claim_C2_terminal_handling :
    (∀ (P O : Type) (cfg : DQNConfig P O) (s : DQNState P O) (x : List ℚ)
      (a : ℕ) (xp : List ℚ) (r : ℚ),
      (dqnUpdate cfg s x a xp r 0).1.buffer =
        addTuple cfg.bufferSize s.buffer ⟨x, a, List.replicate x.length 0, r, 0⟩) ∧
    (∀ (P O : Type) (cfg : DQNConfig P O) (s : DQNState P O) (x : List ℚ)
      (a : ℕ) (xp : List ℚ) (r : ℚ),
      (⟨x, a, List.replicate x.length 0, r, 0⟩ : Transition) ∈
        (dqnUpdate cfg s x a xp r 0).1.buffer) ∧
    (∀ (r : ℚ) (qp : List Dual), q_target r 0 qp = ofQ r) ∧
    (∀ (q : List Dual) (a : ℕ) (r : ℚ) (qp : List Dual),
      q_loss q a r 0 qp = huber_loss 1 (q.getD a (ofQ 0)) (ofQ r)) := by
  refine ⟨dqnUpdate_buffer_terminal, ?_, q_target_gamma_zero, ?_⟩
  · intro P O cfg s x a xp r
    rw [dqnUpdate_buffer_terminal]
    exact mem_addTuple _ _ _
  · intro q a r qp
    unfold q_loss
    rw [q_target_gamma_zero]

/-- Claim C1 (amended): over any update call, the step counter counts
`update()` calls (second conjunct), and `target_params` is replaced — with
exactly the post-update `net_params`, a wholesale hard copy — precisely when a
network update actually ran (the sample flag is true) and the incremented call
counter is a multiple of `target_refresh`; in every other case it is left
unchanged. -/
theorem claim_C1_target_refresh (P O : Type) (cfg : DQNConfig P O)
    (s : DQNState P O) (x : List ℚ) (a : ℕ) (xp : List ℚ) (r gamma : ℚ) :
    (dqnUpdate cfg s x a xp r gamma).1.steps = s.steps + 1 ∧
    (dqnUpdate cfg s x a xp r gamma).1.targetParams =
      (if (dqnUpdate cfg s x a xp r gamma).2 = true ∧
          (dqnUpdate cfg s x a xp r gamma).1.steps % cfg.targetRefresh = 0
       then (dqnUpdate cfg s x a xp r gamma).1.netParams
       else s.targetParams) := by
  refine ⟨dqnUpdate_fst_steps P O cfg s x a xp r gamma, ?_⟩
  simp only [dqnUpdate]
  split
  · simp [dqnInsert]
  · split
    · by_cases h3 : (s.steps + 1) % cfg.targetRefresh = 0
      · simp [dqnInsert, updateNetwork, h3]
      · simp [dqnInsert, updateNetwork, h3]
    · simp [dqnInsert]

/-- Counterexample to claim C1 as stated: with `target_refresh = 1`,
`update_freq = 1` and `batch_size = 1`, the first `update` call leaves the
step counter at a multiple of `target_refresh`, yet `target_params` does not
change (the network update is skipped because the buffer occupancy, 1, does
not exceed the batch size), so "`target_params` changes if and only if the
step counter is a multiple of `target_refresh`" fails. -/
theorem claim_C1_cex :
    ((dqnUpdate cexConfigA cexStart [1] 0 [1] 1 1).1.steps %
        cexConfigA.targetRefresh = 0) ∧
    (dqnUpdate cexConfigA cexStart [1] 0 [1] 1 1).1.targetParams =
      cexStart.targetParams ∧
    ¬ (((dqnUpdate cexConfigA cexStart [1] 0 [1] 1 1).1.targetParams ≠
          cexStart.targetParams) ↔
        ((dqnUpdate cexConfigA cexStart [1] 0 [1] 1 1).1.steps %
          cexConfigA.targetRefresh = 0)) := by
  decide

/-- Claim C3 (amended), for both agents: the sample call happens exactly when
the incremented step counter is on the `update_freq` cadence and the buffer
occupancy strictly exceeds `batch_size` (so `sample` is never invoked
otherwise); when it happens, `net_params` and `opt_state` are replaced
together by the two outputs of the single compute step and `target_params` is
replaced by the new parameters exactly on the `target_refresh` cadence; when
it does not happen, parameters, optimizer state and target are all left
unchanged. -/
theorem claim_C3_frame :
    (∀ (P O : Type) (cfg : DQNConfig P O) (s : DQNState P O) (x : List ℚ)
      (a : ℕ) (xp : List ℚ) (r gamma : ℚ),
      ((dqnUpdate cfg s x a xp r gamma).2 =
        (decide ((s.steps + 1) % cfg.updateFreq = 0) &&
         decide (cfg.batchSize <
           (dqnUpdate cfg s x a xp r gamma).1.buffer.length))) ∧
      ((dqnUpdate cfg s x a xp r gamma).1.netParams =
        if (dqnUpdate cfg s x a xp r gamma).2 = true
        then (cfg.computeUpdate s.netParams s.targetParams s.optState
          (cfg.sampler (dqnUpdate cfg s x a xp r gamma).1.buffer
            cfg.batchSize)).2.2
        else s.netParams) ∧
      ((dqnUpdate cfg s x a xp r gamma).1.optState =
        if (dqnUpdate cfg s x a xp r gamma).2 = true
        then (cfg.computeUpdate s.netParams s.targetParams s.optState
          (cfg.sampler (dqnUpdate cfg s x a xp r gamma).1.buffer
            cfg.batchSize)).2.1
        else s.optState) ∧
      ((dqnUpdate cfg s x a xp r gamma).1.targetParams =
        if (dqnUpdate cfg s x a xp r gamma).2 = true ∧
            (s.steps + 1) % cfg.targetRefresh = 0
        then (cfg.computeUpdate s.netParams s.targetParams s.optState
          (cfg.sampler (dqnUpdate cfg s x a xp r gamma).1.buffer
            cfg.batchSize)).2.2
        else s.targetParams)) ∧
    (∀ (P O : Type) (cfg : EQRCConfig P O) (s : EQRCState P O) (x : List ℚ)
      (a : ℕ) (xp : List ℚ) (r gamma : ℚ),
      ((eqrcUpdate cfg s x a xp r gamma).2 =
        (decide ((s.steps + 1) % cfg.updateFreq = 0) &&
         decide (cfg.batchSize <
           (eqrcUpdate cfg s x a xp r gamma).1.buffer.length))) ∧
      ((eqrcUpdate cfg s x a xp r gamma).1.params =
        if (eqrcUpdate cfg s x a xp r gamma).2 = true
        then (cfg.computeUpdate s.params s.optState
          (cfg.sampler (eqrcUpdate cfg s x a xp r gamma).1.buffer
            cfg.batchSize)).2.2
        else s.params) ∧
      ((eqrcUpdate cfg s x a xp r gamma).1.optState =
        if (eqrcUpdate cfg s x a xp r gamma).2 = true
        then (cfg.computeUpdate s.params s.optState
          (cfg.sampler (eqrcUpdate cfg s x a xp r gamma).1.buffer
            cfg.batchSize)).2.1
        else s.optState)) := by
  constructor
  · intro P O cfg s x a xp r gamma
    simp only [dqnUpdate]
    split
    case isTrue h1 =>
      simp only [dqnInsert] at h1
      refine ⟨?_, ?_, ?_, ?_⟩ <;> simp [dqnInsert, h1]
    case isFalse h1 =>
      rw [not_not] at h1
      simp only [dqnInsert] at h1
      split
      case isTrue h2 =>
        simp only [dqnInsert] at h2
        by_cases h3 : (s.steps + 1) % cfg.targetRefresh = 0
        · refine ⟨?_, ?_, ?_, ?_⟩ <;>
            simp [dqnInsert, updateNetwork, h1, h2, h3]
        · refine ⟨?_, ?_, ?_, ?_⟩ <;>
            simp [dqnInsert, updateNetwork, h1, h2, h3]
      case isFalse h2 =>
        simp only [dqnInsert] at h2
        refine ⟨?_, ?_, ?_, ?_⟩ <;> simp [dqnInsert, h1, h2]
  · intro P O cfg s x a xp r gamma
    simp only [eqrcUpdate]
    split
    case isTrue h1 =>
      simp only [eqrcInsert] at h1
      refine ⟨?_, ?_, ?_⟩ <;> simp [eqrcInsert, h1]
    case isFalse h1 =>
      rw [not_not] at h1
      simp only [eqrcInsert] at h1
      split
      case isTrue h2 =>
        simp only [eqrcInsert] at h2
        refine ⟨?_, ?_, ?_⟩ <;>
          simp [eqrcInsert, eqrcUpdateNetwork, h1, h2]
      case isFalse h2 =>
        simp only [eqrcInsert] at h2
        refine ⟨?_, ?_, ?_⟩ <;> simp [eqrcInsert, h1, h2]

/-- Counterexample to claim C3 as stated: with `batch_size = 0`,
`update_freq = 1` and `target_refresh = 2`, the first `update` call runs a
network update (sample invoked, parameters and optimizer state replaced), yet
`target_params` keeps its old value, which differs from the new parameters —
so "parameters, optimizer state, and target are all replaced together" fails
off the target cadence. -/
theorem claim_C3_cex :
    (dqnUpdate cexConfigB cexStart [1] 0 [1] 1 1).2 = true ∧
    (dqnUpdate cexConfigB cexStart [1] 0 [1] 1 1).1.netParams ≠
      cexStart.netParams ∧
    (dqnUpdate cexConfigB cexStart [1] 0 [1] 1 1).1.targetParams =
      cexStart.targetParams ∧
    (dqnUpdate cexConfigB cexStart [1] 0 [1] 1 1).1.targetParams ≠
      (dqnUpdate cexConfigB cexStart [1] 0 [1] 1 1).1.netParams := by
  norm_num [dqnUpdate, dqnInsert, updateNetwork, addTuple, cexConfigB, cexStart]
